import Mathlib

/-!
Verification development for `src/dom-navigator.js` (converse.js DOMNavigator).

The JavaScript class is shallowly embedded as pure Lean functions over an
explicit state.  The external DOM/geometry collaborators (element offsets,
bounding client rectangles, window dimensions, the registered-listener set of
`document`, CSS classes and input focus) are represented explicitly:

* `Elem` carries the per-element data the code reads: `offsetLeft`, `offsetTop`,
  `offsetWidth`, `offsetHeight` (JS numbers, modelled as `Int`), whether the
  element matches the `input` selector, its `getBoundingClientRect` rectangle,
  and the `offsetParent` chain contributions used by `absoluteOffsetLeft` and
  `absoluteOffsetTop` (a `none` entry models a `NaN` contribution).
* `Env` carries the static external geometry (scroll container offsets and
  dimensions, `document.body` offsets, `document.documentElement` client
  dimensions, `window.inner*`), the result of
  `container.querySelectorAll(selector)` in document order, and the four
  configured key codes.
* `St` carries everything the navigator mutates: the scanned `elements`, the
  `selected` element, the `enabled` flag, the stored `keydownHandler` (closures
  are identified by `Nat` ids; `nextHandlerId` supplies a fresh id per created
  closure), the keydown listeners currently registered on `document`, the set of
  element ids holding the configured highlight class, the focused element, the
  scroll container's `scrollLeft`/`scrollTop`, `document.body`'s scroll
  offsets, and two instrumentation counters: `markerOps` counts applications of
  the selection marker (`u.addClass` or `el.focus()` inside `select`) and
  `scrollToCalls` counts invocations of `scrollTo`.
-/

namespace DomNavigator

/-- An element as seen by `dom-navigator.js`: identity plus the geometry the
code reads from it. -/
structure Elem where
  id : Nat
  offsetLeft : Int
  offsetTop : Int
  offsetWidth : Int
  offsetHeight : Int
  isInput : Bool
  rectLeft : Int
  rectTop : Int
  rectRight : Int
  rectBottom : Int
  chainLefts : List (Option Int)
  chainTops : List (Option Int)
deriving DecidableEq

/-- Static external environment: container/body/window geometry, the document
order scan result, and the configured key codes (defaults 37/38/39/40). -/
structure Env where
  containerOffsetLeft : Int
  containerOffsetTop : Int
  containerOffsetWidth : Int
  containerOffsetHeight : Int
  bodyOffsetLeft : Int
  bodyOffsetTop : Int
  clientWidth : Int
  clientHeight : Int
  innerWidth : Int
  innerHeight : Int
  domElements : List Elem
  left : Nat
  up : Nat
  right : Nat
  down : Nat
deriving DecidableEq

/-- Mutable state of the navigator together with the mutable parts of its
external collaborators (document listeners, classes, focus, scroll offsets). -/
structure St where
  elements : List Elem
  selected : Option Elem
  enabled : Bool
  keydownHandler : Option Nat
  nextHandlerId : Nat
  listeners : List Nat
  classes : List Nat
  focused : Option Nat
  scrollLeft : Int
  scrollTop : Int
  bodyScrollLeft : Int
  bodyScrollTop : Int
  markerOps : Nat
  scrollToCalls : Nat
deriving DecidableEq

/-- The free function `inViewport(el)`: the bounding client rectangle lies
fully inside the window (`rect.top >= 0 && rect.left >= 0 &&
rect.bottom <= window.innerHeight && rect.right <= window.innerWidth`). -/
def inViewport (env : Env) (el : Elem) : Bool :=
  decide (0 ≤ el.rectTop) && decide (0 ≤ el.rectLeft) &&
  decide (el.rectBottom ≤ env.innerHeight) && decide (el.rectRight ≤ env.innerWidth)

/-- The free function `absoluteOffsetTop(el)`: a do-while loop summing
`offsetTop` along the `offsetParent` chain, skipping `NaN` contributions.  The
element's own `offsetTop` is an `Int` in the model, hence always added; each
ancestor contribution is an `Option Int` whose `none` models `NaN` and adds 0. -/
def absoluteOffsetTop (el : Elem) : Int :=
  el.chainTops.foldl (fun acc o => acc + o.getD 0) el.offsetTop

/-- The free function `absoluteOffsetLeft(el)`, mirror of `absoluteOffsetTop`. -/
def absoluteOffsetLeft (el : Elem) : Int :=
  el.chainLefts.foldl (fun acc o => acc + o.getD 0) el.offsetLeft

/-- `DOMNavigator#inScrollContainerViewport(el)`.  The source is a chain of
four early-return-false checks (left, top, right, bottom); each conjunct below
is the negation of the corresponding check, so the conjunction is `true`
exactly when no check fires. -/
def inScrollContainerViewport (env : Env) (st : St) (el : Elem) : Bool :=
  decide (env.containerOffsetLeft ≤ el.offsetLeft - st.scrollLeft) &&
  decide (env.containerOffsetTop ≤ el.offsetTop - st.scrollTop) &&
  decide (el.offsetLeft + el.offsetWidth - st.scrollLeft
            ≤ env.containerOffsetLeft + env.containerOffsetWidth) &&
  decide (el.offsetTop + el.offsetHeight - st.scrollTop
            ≤ env.containerOffsetTop + env.containerOffsetHeight)

/-- `DOMNavigator#scrollTo(el, direction)`.  First branch: element outside the
scroll container's view, mutate the container scroll offset (a `switch` on the
direction string; an unrecognized string falls through mutating nothing).
Second branch: element outside the window viewport, mutate `document.body`'s
scroll offset using absolute offsets and client dimensions.  Otherwise no
mutation.  `scrollToCalls` is instrumentation counting invocations. -/
def scrollTo (env : Env) (st : St) (el : Elem) (direction : String) : St :=
  let st1 := { st with scrollToCalls := st.scrollToCalls + 1 }
  if inScrollContainerViewport env st el = false then
    if direction = "left" then
      { st1 with scrollLeft := el.offsetLeft - env.containerOffsetLeft }
    else if direction = "up" then
      { st1 with scrollTop := el.offsetTop - env.containerOffsetTop }
    else if direction = "right" then
      { st1 with scrollLeft := el.offsetLeft - env.containerOffsetLeft
                  - (env.containerOffsetWidth - el.offsetWidth) }
    else if direction = "down" then
      { st1 with scrollTop := el.offsetTop - env.containerOffsetTop
                  - (env.containerOffsetHeight - el.offsetHeight) }
    else st1
  else if inViewport env el = false then
    if direction = "left" then
      { st1 with bodyScrollLeft := absoluteOffsetLeft el - env.bodyOffsetLeft }
    else if direction = "up" then
      { st1 with bodyScrollTop := absoluteOffsetTop el - env.bodyOffsetTop }
    else if direction = "right" then
      { st1 with bodyScrollLeft := absoluteOffsetLeft el - env.bodyOffsetLeft
                  - (env.clientWidth - el.offsetWidth) }
    else if direction = "down" then
      { st1 with bodyScrollTop := absoluteOffsetTop el - env.bodyOffsetTop
                  - (env.clientHeight - el.offsetHeight) }
    else st1
  else st1

/-- `DOMNavigator#elementsAfter(left, top)`: elements with
`el.offsetLeft >= left && el.offsetTop >= top`. -/
def elementsAfter (st : St) (left top : Int) : List Elem :=
  st.elements.filter (fun el => decide (left ≤ el.offsetLeft) && decide (top ≤ el.offsetTop))

/-- `DOMNavigator#elementsBefore(left, top)` at the only call site,
`elementsBefore(Infinity, top)`: the `el.offsetLeft <= Infinity` conjunct is
always true, so only the top bound filters. -/
def elementsBeforeTop (st : St) (top : Int) : List Elem :=
  st.elements.filter (fun el => decide (el.offsetTop ≤ top))

/-- One step of the `Array#reduce` callback in `getNextElement`.  The
accumulator `none` models the initial `{distance: Infinity}` object (any real
distance compares strictly below `Infinity`, so the first candidate always
replaces it); `some (pd, pe)` models `{distance: pd, element: pe}`.  The
comparison is the source's strict `current_distance < prev.distance`. -/
def reduceStep (getDistance : Elem → Int) (prev : Option (Int × Elem)) (curr : Elem) :
    Option (Int × Elem) :=
  let current_distance := getDistance curr
  match prev with
  | none => some (current_distance, curr)
  | some (pd, pe) =>
    if current_distance < pd then some (current_distance, curr) else some (pd, pe)

/-- The `els.reduce(...)` expression of `getNextElement`: fold `reduceStep`
from the `Infinity` seed and return the `element` field (`none` when the
candidate list is empty, matching the `undefined` element of the seed). -/
def reduceNearest (getDistance : Elem → Int) (els : List Elem) : Option Elem :=
  (els.foldl (reduceStep getDistance) none).map Prod.snd

/-- Modelled from the spec: `u.getNextElement` (imported from `./utils/html`)
is not part of the given sources.  Spec §4.3: "Right: target = the candidate
immediately following the current selection in sequence order", with no
wrap-around — at the last position the result is absent. -/
def specGetNextElement (sel : Elem) : List Elem → Option Elem
  | [] => none
  | x :: rest => if x = sel then rest.head? else specGetNextElement sel rest

/-- Modelled from the spec: `u.getPreviousElement` (imported from
`./utils/html`) is not part of the given sources.  Spec §4.3: "Left: target =
the candidate immediately preceding", no wrap-around — at the first position
the result is absent.  The immediate predecessor in a sequence is the immediate
successor in the reversed sequence. -/
def specGetPreviousElement (sel : Elem) (l : List Elem) : Option Elem :=
  specGetNextElement sel l.reverse

/-- `DOMNavigator#getNextElement(direction)`.  `sel` is `this.selected`, which
every caller guarantees non-null on this path.  Directions are the four strings
of `DOMNavigator.DIRECTION`; any other string hits the `throw new Error`
branch, modelled as `Except.error`. -/
def getNextElement (st : St) (sel : Elem) (direction : String) :
    Except String (Option Elem) :=
  if direction = "right" then
    Except.ok (specGetNextElement sel st.elements)
  else if direction = "left" then
    Except.ok (specGetPreviousElement sel st.elements)
  else if direction = "down" then
    let left := sel.offsetLeft
    let top := sel.offsetTop + sel.offsetHeight
    let els := elementsAfter st 0 top
    Except.ok (reduceNearest (fun el => |el.offsetLeft - left| + |el.offsetTop - top|) els)
  else if direction = "up" then
    let left := sel.offsetLeft
    let top := sel.offsetTop - 1
    let els := elementsBeforeTop st top
    Except.ok (reduceNearest (fun el => |left - el.offsetLeft| + |top - el.offsetTop|) els)
  else
    Except.error "getNextElement: invalid direction value"

/-- `DOMNavigator#unselect()`: if an element is selected, remove the configured
highlight class from it (`u.removeClass`) and clear `this.selected`.  Focus is
never touched. -/
def unselect (st : St) : St :=
  match st.selected with
  | some sel =>
    { st with classes := st.classes.filter (fun i => i ≠ sel.id), selected := none }
  | none => st

/-- `DOMNavigator#select(el, direction)`.  Null or already-selected element:
early return.  Otherwise: `unselect()`, then `direction && this.scrollTo(...)`
(the scroll runs only when a direction argument was passed), then either
`el.focus()` for an element matching `input` or `u.addClass` otherwise
(`markerOps` is instrumentation counting these marker applications), finally
`this.selected = el`. -/
def select (env : Env) (st : St) (el : Option Elem) (direction : Option String) : St :=
  match el with
  | none => st
  | some el =>
    if st.selected = some el then st
    else
      let st1 := unselect st
      let st2 := match direction with
        | some d => scrollTo env st1 el d
        | none => st1
      let st3 :=
        if el.isInput then
          { st2 with focused := some el.id, markerOps := st2.markerOps + 1 }
        else
          { st2 with
              classes := if el.id ∈ st2.classes then st2.classes else el.id :: st2.classes,
              markerOps := st2.markerOps + 1 }
      { st3 with selected := some el }

/-- `DOMNavigator#getElements()`: rescan the container
(`container.querySelectorAll(selector)` in document order). -/
def getElements (env : Env) (st : St) : St :=
  { st with elements := env.domElements }

/-- `DOMNavigator#enable()`: rescan, create a fresh `keydownHandler` closure
(fresh id from `nextHandlerId`), register it on `document` via
`addEventListener` (a closure distinct from every previously registered one, so
it is always appended), and set the enabled flag. -/
def enable (env : Env) (st : St) : St :=
  let st1 := getElements env st
  let h := st1.nextHandlerId
  { st1 with
      keydownHandler := some h,
      nextHandlerId := h + 1,
      listeners := st1.listeners ++ [h],
      enabled := true }

/-- `DOMNavigator#disable()`: if a `keydownHandler` is stored, remove that one
listener from `document`; then `unselect()` and clear the enabled flag.  The
stored handler reference itself is not cleared by the source. -/
def disable (st : St) : St :=
  let st1 := match st.keydownHandler with
    | some h => { st with listeners := st.listeners.erase h }
    | none => st
  let st2 := unselect st1
  { st2 with enabled := false }

/-- The hotkeys map built by `init()`: `keys[options.left] = 'left'` then `up`,
`right`, `down` in that order.  A later assignment to the same key code
overwrites an earlier one, so lookups are checked in reverse assignment
order. -/
def keysLookup (env : Env) (which : Nat) : Option String :=
  if which = env.down then some "down"
  else if which = env.right then some "right"
  else if which = env.up then some "up"
  else if which = env.left then some "left"
  else none

/-- `DOMNavigator#handleKeydown(event)`: look the key code up in the hotkeys
map; if bound, compute the target — `getNextElement(direction)` when a
selection exists, `this.elements[0]` otherwise — and `select(next, direction)`.
The `Except.error` branch is unreachable here because the hotkeys map contains
only the four direction strings; the exception would propagate before any
mutation, leaving the state unchanged. -/
def handleKeydown (env : Env) (st : St) (which : Nat) : St :=
  match keysLookup env which with
  | none => st
  | some direction =>
    let next := match st.selected with
      | some sel =>
        match getNextElement st sel direction with
        | Except.ok o => o
        | Except.error _ => none
      | none => st.elements.head?
    select env st next (some direction)

/-! ## Spec-side reference definitions

`firstMinBy` is written from the spec's words, independently of the `reduce`
in the source: among a candidate list it picks the earliest candidate of
minimal distance — "ties are broken by first-encountered-wins under a strict
less-than comparison (a later candidate with equal distance is never chosen
over an earlier one)".  `isFirstMin` characterises that choice as a
proposition. -/

/-- Spec-side selection: the earliest candidate of minimal `d`-value.  The head
is kept on ties (`d c ≤ d m`), so an earlier candidate always beats a later
candidate of equal distance. -/
def firstMinBy (d : Elem → Int) : List Elem → Option Elem
  | [] => none
  | c :: rest =>
    match firstMinBy d rest with
    | none => some c
    | some m => if d c ≤ d m then some c else some m

/-- `m` is the first-encountered minimum of `d` over `l`: every candidate
before it has strictly larger distance, every candidate after it has distance
at least `d m`. -/
def isFirstMin (d : Elem → Int) (l : List Elem) (m : Elem) : Prop :=
  ∃ pre post, l = pre ++ m :: post ∧
    (∀ x ∈ pre, d m < d x) ∧ (∀ x ∈ post, d m ≤ d x)

lemma firstMinBy_eq_none_iff (d : Elem → Int) (l : List Elem) :
    firstMinBy d l = none ↔ l = [] := by
  cases l with
  | nil => simp [firstMinBy]
  | cons c rest =>
    simp only [firstMinBy]
    cases h : firstMinBy d rest with
    | none => simp
    | some m =>
      by_cases hle : d c ≤ d m <;> simp [hle]

lemma isFirstMin_min (d : Elem → Int) (l : List Elem) (m : Elem)
    (h : isFirstMin d l m) : ∀ x ∈ l, d m ≤ d x := by
  obtain ⟨pre, post, rfl, hpre, hpost⟩ := h
  intro x hx
  rcases List.mem_append.mp hx with hx | hx
  · exact le_of_lt (hpre x hx)
  · rcases List.mem_cons.mp hx with rfl | hx
    · exact le_refl _
    · exact hpost x hx

lemma firstMinBy_isFirstMin (d : Elem → Int) :
    ∀ (l : List Elem) (m : Elem), firstMinBy d l = some m → isFirstMin d l m := by
  intro l
  induction l with
  | nil => intro m h; simp [firstMinBy] at h
  | cons c rest ih =>
    intro m h
    simp only [firstMinBy] at h
    cases hrest : firstMinBy d rest with
    | none =>
      rw [hrest] at h
      have : rest = [] := (firstMinBy_eq_none_iff d rest).mp hrest
      subst this
      cases h
      exact ⟨[], [], rfl, by simp, by simp⟩
    | some m0 =>
      rw [hrest] at h
      simp only at h
      have h0 := ih m0 hrest
      by_cases hle : d c ≤ d m0
      · rw [if_pos hle] at h
        cases h
        refine ⟨[], rest, rfl, by simp, ?_⟩
        intro x hx
        exact le_trans hle (isFirstMin_min d rest m0 h0 x hx)
      · rw [if_neg hle] at h
        cases h
        obtain ⟨pre0, post0, hsplit, hpre0, hpost0⟩ := h0
        refine ⟨c :: pre0, post0, by rw [hsplit]; simp, ?_, hpost0⟩
        intro x hx
        rcases List.mem_cons.mp hx with rfl | hx
        · exact lt_of_not_ge hle
        · exact hpre0 x hx

/-- The fold of `reduceStep` from a finite seed: the seed element survives
unless some list element beats its distance strictly, in which case the
earliest minimal list element wins. -/
lemma foldl_reduceStep (d : Elem → Int) :
    ∀ (els : List Elem) (pd : Int) (pe : Elem),
      els.foldl (reduceStep d) (some (pd, pe)) =
        match firstMinBy d els with
        | none => some (pd, pe)
        | some m => if d m < pd then some (d m, m) else some (pd, pe) := by
  intro els
  induction els with
  | nil => intro pd pe; simp [firstMinBy]
  | cons c rest ih =>
    intro pd pe
    simp only [List.foldl_cons]
    by_cases hc : d c < pd
    · rw [show reduceStep d (some (pd, pe)) c = some (d c, c) by
          simp [reduceStep, hc]]
      rw [ih (d c) c]
      simp only [firstMinBy]
      cases hrest : firstMinBy d rest with
      | none => simp [hc]
      | some m0 =>
        by_cases hle : d c ≤ d m0
        · have h1 : ¬ d m0 < d c := not_lt.mpr hle
          simp [hle, h1, hc]
        · have h1 : d m0 < d c := lt_of_not_ge hle
          simp [hle, h1, lt_trans h1 hc]
    · rw [show reduceStep d (some (pd, pe)) c = some (pd, pe) by
          simp [reduceStep, hc]]
      rw [ih pd pe]
      simp only [firstMinBy]
      cases hrest : firstMinBy d rest with
      | none => simp [hc]
      | some m0 =>
        by_cases hle : d c ≤ d m0
        · have h1 : ¬ d m0 < pd := fun h2 => hc (lt_of_le_of_lt hle h2)
          simp [hle, h1, hc]
        · simp [hle]

/-- The source's `reduce`-based nearest choice coincides with the spec-side
earliest-minimum choice. -/
lemma reduceNearest_eq_firstMinBy (d : Elem → Int) (els : List Elem) :
    reduceNearest d els = firstMinBy d els := by
  cases els with
  | nil => rfl
  | cons c rest =>
    unfold reduceNearest
    simp only [List.foldl_cons]
    rw [show reduceStep d none c = some (d c, c) from rfl]
    rw [foldl_reduceStep d rest (d c) c]
    simp only [firstMinBy]
    cases hrest : firstMinBy d rest with
    | none => rfl
    | some m0 =>
      by_cases hle : d c ≤ d m0
      · have h1 : ¬ d m0 < d c := not_lt.mpr hle
        simp [hle, h1]
      · have h1 : d m0 < d c := lt_of_not_ge hle
        simp [hle, h1]

/-! ## Helper lemmas about the operations -/

@[simp] lemma scrollTo_elements (env : Env) (st : St) (el : Elem) (direction : String) :
    (scrollTo env st el direction).elements = st.elements := by
  unfold scrollTo; split_ifs <;> rfl

@[simp] lemma scrollTo_selected (env : Env) (st : St) (el : Elem) (direction : String) :
    (scrollTo env st el direction).selected = st.selected := by
  unfold scrollTo; split_ifs <;> rfl

@[simp] lemma scrollTo_enabled (env : Env) (st : St) (el : Elem) (direction : String) :
    (scrollTo env st el direction).enabled = st.enabled := by
  unfold scrollTo; split_ifs <;> rfl

@[simp] lemma scrollTo_keydownHandler (env : Env) (st : St) (el : Elem) (direction : String) :
    (scrollTo env st el direction).keydownHandler = st.keydownHandler := by
  unfold scrollTo; split_ifs <;> rfl

@[simp] lemma scrollTo_nextHandlerId (env : Env) (st : St) (el : Elem) (direction : String) :
    (scrollTo env st el direction).nextHandlerId = st.nextHandlerId := by
  unfold scrollTo; split_ifs <;> rfl

@[simp] lemma scrollTo_listeners (env : Env) (st : St) (el : Elem) (direction : String) :
    (scrollTo env st el direction).listeners = st.listeners := by
  unfold scrollTo; split_ifs <;> rfl

@[simp] lemma scrollTo_classes (env : Env) (st : St) (el : Elem) (direction : String) :
    (scrollTo env st el direction).classes = st.classes := by
  unfold scrollTo; split_ifs <;> rfl

@[simp] lemma scrollTo_focused (env : Env) (st : St) (el : Elem) (direction : String) :
    (scrollTo env st el direction).focused = st.focused := by
  unfold scrollTo; split_ifs <;> rfl

@[simp] lemma scrollTo_markerOps (env : Env) (st : St) (el : Elem) (direction : String) :
    (scrollTo env st el direction).markerOps = st.markerOps := by
  unfold scrollTo; split_ifs <;> rfl

@[simp] lemma scrollTo_scrollToCalls (env : Env) (st : St) (el : Elem) (direction : String) :
    (scrollTo env st el direction).scrollToCalls = st.scrollToCalls + 1 := by
  unfold scrollTo; split_ifs <;> rfl

/-- When both visibility checks pass, `scrollTo` mutates nothing: only the
instrumentation counter distinguishes the result from the input state. -/
lemma scrollTo_noop_of_visible (env : Env) (st : St) (el : Elem) (direction : String)
    (h1 : inScrollContainerViewport env st el = true) (h2 : inViewport env el = true) :
    scrollTo env st el direction = { st with scrollToCalls := st.scrollToCalls + 1 } := by
  unfold scrollTo
  rw [h1, h2]
  simp

lemma unselect_of_none (st : St) (h : st.selected = none) : unselect st = st := by
  unfold unselect
  rw [h]

lemma unselect_fields (st : St) :
    (unselect st).selected = none ∨ unselect st = st := by
  unfold unselect
  cases h : st.selected with
  | none => exact Or.inr rfl
  | some sel => exact Or.inl rfl

@[simp] lemma unselect_elements (st : St) : (unselect st).elements = st.elements := by
  unfold unselect; cases st.selected <;> rfl

@[simp] lemma unselect_enabled (st : St) : (unselect st).enabled = st.enabled := by
  unfold unselect; cases st.selected <;> rfl

@[simp] lemma unselect_keydownHandler (st : St) :
    (unselect st).keydownHandler = st.keydownHandler := by
  unfold unselect; cases st.selected <;> rfl

@[simp] lemma unselect_nextHandlerId (st : St) :
    (unselect st).nextHandlerId = st.nextHandlerId := by
  unfold unselect; cases st.selected <;> rfl

@[simp] lemma unselect_listeners (st : St) : (unselect st).listeners = st.listeners := by
  unfold unselect; cases st.selected <;> rfl

@[simp] lemma unselect_focused (st : St) : (unselect st).focused = st.focused := by
  unfold unselect; cases st.selected <;> rfl

@[simp] lemma unselect_scrollLeft (st : St) : (unselect st).scrollLeft = st.scrollLeft := by
  unfold unselect; cases st.selected <;> rfl

@[simp] lemma unselect_scrollTop (st : St) : (unselect st).scrollTop = st.scrollTop := by
  unfold unselect; cases st.selected <;> rfl

@[simp] lemma unselect_bodyScrollLeft (st : St) :
    (unselect st).bodyScrollLeft = st.bodyScrollLeft := by
  unfold unselect; cases st.selected <;> rfl

@[simp] lemma unselect_bodyScrollTop (st : St) :
    (unselect st).bodyScrollTop = st.bodyScrollTop := by
  unfold unselect; cases st.selected <;> rfl

@[simp] lemma unselect_markerOps (st : St) : (unselect st).markerOps = st.markerOps := by
  unfold unselect; cases st.selected <;> rfl

@[simp] lemma unselect_scrollToCalls (st : St) :
    (unselect st).scrollToCalls = st.scrollToCalls := by
  unfold unselect; cases st.selected <;> rfl

lemma select_none (env : Env) (st : St) (direction : Option String) :
    select env st none direction = st := rfl

lemma select_already (env : Env) (st : St) (el : Elem) (direction : Option String)
    (h : st.selected = some el) : select env st (some el) direction = st := by
  simp only [select]
  rw [if_pos h]

lemma select_new_selected (env : Env) (st : St) (el : Elem) (direction : Option String)
    (h : st.selected ≠ some el) :
    (select env st (some el) direction).selected = some el := by
  simp only [select]
  rw [if_neg h]

lemma select_new_markerOps (env : Env) (st : St) (el : Elem) (direction : Option String)
    (h : st.selected ≠ some el) :
    (select env st (some el) direction).markerOps = st.markerOps + 1 := by
  simp only [select]
  rw [if_neg h]
  cases direction <;> cases hin : el.isInput <;> simp [hin]

lemma select_new_scrollToCalls (env : Env) (st : St) (el : Elem)
    (h : st.selected ≠ some el) :
    (select env st (some el) none).scrollToCalls = st.scrollToCalls ∧
    (∀ d, (select env st (some el) (some d)).scrollToCalls = st.scrollToCalls + 1) := by
  constructor
  · simp only [select]
    rw [if_neg h]
    cases hin : el.isInput <;> simp [hin]
  · intro d
    simp only [select]
    rw [if_neg h]
    cases hin : el.isInput <;> simp [hin]

lemma unselect_selected_of_some (st : St) (sel : Elem) (h : st.selected = some sel) :
    (unselect st).selected = none := by
  unfold unselect; rw [h]

/-! ## Shared concrete fixtures for witnesses and counterexamples -/

/-- An element with the given id, offsets and size, a bounding rectangle well
inside a 1000×1000 window, not input-like, and a trivial offsetParent chain. -/
def mkElem (i : Nat) (l t w h : Int) : Elem :=
  { id := i, offsetLeft := l, offsetTop := t, offsetWidth := w, offsetHeight := h,
    isInput := false, rectLeft := 0, rectTop := 0, rectRight := 10, rectBottom := 10,
    chainLefts := [], chainTops := [] }

/-- A 100×100 scroll container at the document origin, a 1000×1000 window, the
default arrow-key bindings, and an empty scan result. -/
def baseEnv : Env :=
  { containerOffsetLeft := 0, containerOffsetTop := 0,
    containerOffsetWidth := 100, containerOffsetHeight := 100,
    bodyOffsetLeft := 0, bodyOffsetTop := 0,
    clientWidth := 1000, clientHeight := 1000,
    innerWidth := 1000, innerHeight := 1000,
    domElements := [], left := 37, up := 38, right := 39, down := 40 }

/-- The freshly initialised navigator state: nothing selected, nothing scanned,
no listener, all scroll offsets zero. -/
def baseSt : St :=
  { elements := [], selected := none, enabled := false, keydownHandler := none,
    nextHandlerId := 0, listeners := [], classes := [], focused := none,
    scrollLeft := 0, scrollTop := 0, bodyScrollLeft := 0, bodyScrollTop := 0,
    markerOps := 0, scrollToCalls := 0 }

/-- An input-like element (matches the `input` selector, so `select` moves
focus to it instead of adding the highlight class). -/
def inpEl : Elem :=
  { id := 5, offsetLeft := 0, offsetTop := 0, offsetWidth := 10, offsetHeight := 10,
    isInput := true, rectLeft := 0, rectTop := 0, rectRight := 10, rectBottom := 10,
    chainLefts := [], chainTops := [] }

/-! ## Claim theorems -/

/-- C3 (code bug): the claim — and spec §4.5/§5 — require `enable()` to be
idempotent: a second `enable()` while already enabled must not register a
second keydown listener.  The source creates a fresh handler closure on every
call and passes it to `addEventListener`, so after `enable(); enable()` two
keydown listeners are registered on the document; a subsequent `disable()`
removes only the most recently stored handler, leaving the first one leaked. -/
theorem C3_double_enable_registers_two :
    (enable baseEnv (enable baseEnv baseSt)).listeners.length = 2 ∧
    (enable baseEnv (enable baseEnv baseSt)).enabled = true ∧
    (disable (enable baseEnv (enable baseEnv baseSt))).listeners.length = 1 :=
  ⟨rfl, rfl, rfl⟩

/-- C6: `select` of a null element, or of the already-selected element, is a
silent no-op: the state is returned unchanged, so no visual side effect and no
scroll fires.  From a state where `el` is not yet selected, two consecutive
`select el` calls produce exactly one application of the selection marker and
at most one `scrollTo` invocation in total: the second call is a no-op. -/
theorem C6_select_noop (env : Env) (st : St) (el : Elem) (direction : Option String)
    (h : st.selected ≠ some el) :
    select env st none direction = st ∧
    (∀ st' : St, st'.selected = some el → select env st' (some el) direction = st') ∧
    select env (select env st (some el) direction) (some el) direction
      = select env st (some el) direction ∧
    (select env st (some el) direction).markerOps = st.markerOps + 1 ∧
    (select env st (some el) direction).scrollToCalls ≤ st.scrollToCalls + 1 := by
  refine ⟨rfl, fun st' h' => select_already env st' el direction h', ?_, ?_, ?_⟩
  · exact select_already env _ el direction (select_new_selected env st el direction h)
  · exact select_new_markerOps env st el direction h
  · cases direction with
    | none =>
      rw [(select_new_scrollToCalls env st el h).1]
      exact Nat.le_succ _
    | some d =>
      rw [(select_new_scrollToCalls env st el h).2 d]

/-- Witness for C6 at a concrete state: a fresh navigator, a concrete element,
no direction argument. -/
theorem C6_witness :
    select baseEnv (select baseEnv baseSt (some (mkElem 1 0 0 10 10)) none)
        (some (mkElem 1 0 0 10 10)) none
      = select baseEnv baseSt (some (mkElem 1 0 0 10 10)) none ∧
    (select baseEnv baseSt (some (mkElem 1 0 0 10 10)) none).markerOps = 1 :=
  ⟨(C6_select_noop baseEnv baseSt (mkElem 1 0 0 10 10) none (by decide)).2.2.1,
   (C6_select_noop baseEnv baseSt (mkElem 1 0 0 10 10) none (by decide)).2.2.2.1⟩

/-- C7: any direction value other than the four recognized direction strings,
passed directly to `getNextElement`, hits the `throw new Error` branch: the
computation fails fast instead of being silently ignored or returning a
result. -/
theorem C7_invalid_direction_fails (st : St) (sel : Elem) (direction : String)
    (h1 : direction ≠ "right") (h2 : direction ≠ "left")
    (h3 : direction ≠ "down") (h4 : direction ≠ "up") :
    getNextElement st sel direction
      = Except.error "getNextElement: invalid direction value" := by
  unfold getNextElement
  rw [if_neg h1, if_neg h2, if_neg h3, if_neg h4]

/-- Witness for C7 at the concrete unbound direction string `diagonal`. -/
theorem C7_witness :
    getNextElement baseSt (mkElem 1 0 0 10 10) "diagonal"
      = Except.error "getNextElement: invalid direction value" :=
  C7_invalid_direction_fails baseSt (mkElem 1 0 0 10 10) "diagonal"
    (by decide) (by decide) (by decide) (by decide)

/-- C9 (implicit): a direction-less `select(el)` never invokes the scroll
computation — the container scroll offsets, the page scroll offsets and the
`scrollTo` invocation count are unchanged for every element and every state,
even when the element is outside the container view and the viewport. -/
theorem C9_no_scroll_without_direction (env : Env) (st : St) (el : Option Elem) :
    (select env st el none).scrollLeft = st.scrollLeft ∧
    (select env st el none).scrollTop = st.scrollTop ∧
    (select env st el none).bodyScrollLeft = st.bodyScrollLeft ∧
    (select env st el none).bodyScrollTop = st.bodyScrollTop ∧
    (select env st el none).scrollToCalls = st.scrollToCalls := by
  cases el with
  | none => exact ⟨rfl, rfl, rfl, rfl, rfl⟩
  | some el =>
    by_cases h : st.selected = some el
    · rw [select_already env st el none h]
      exact ⟨rfl, rfl, rfl, rfl, rfl⟩
    · simp only [select]
      rw [if_neg h]
      cases hin : el.isInput <;> simp [hin]

/-- C10 (implicit): `unselect` only removes the configured highlight class
from the currently selected element and clears the selection; it never touches
focus.  So when the selected element is input-like and was given focus on
selection, neither `unselect` nor `disable` removes that focus — the focus
side effect outlives the selection. -/
theorem C10_focus_outlives_selection (st : St) (el : Elem)
    (hsel : st.selected = some el) (_hin : el.isInput = true)
    (hfoc : st.focused = some el.id) :
    (unselect st).focused = some el.id ∧
    (unselect st).selected = none ∧
    (unselect st).classes = st.classes.filter (fun i => i ≠ el.id) ∧
    (disable st).focused = some el.id ∧
    (disable st).selected = none ∧
    (disable st).enabled = false := by
  refine ⟨by simp [hfoc], unselect_selected_of_some st el hsel, ?_, ?_, ?_, ?_⟩
  · unfold unselect; rw [hsel]
  · unfold disable
    cases st.keydownHandler <;> simp [hfoc]
  · unfold disable
    cases st.keydownHandler with
    | none => exact unselect_selected_of_some st el hsel
    | some k => exact unselect_selected_of_some _ el hsel
  · unfold disable
    cases st.keydownHandler <;> rfl

/-- Witness for C10: the focused input state reached by selecting the concrete
input element on a fresh navigator. -/
theorem C10_witness :
    (unselect (select baseEnv baseSt (some inpEl) none)).focused = some 5 ∧
    (disable (select baseEnv baseSt (some inpEl) none)).focused = some 5 :=
  ⟨(C10_focus_outlives_selection (select baseEnv baseSt (some inpEl) none) inpEl
      (by decide) (by decide) (by decide)).1,
   (C10_focus_outlives_selection (select baseEnv baseSt (some inpEl) none) inpEl
      (by decide) (by decide) (by decide)).2.2.2.1⟩

/-- Evaluation of `scrollTo` for direction `down` when the element is outside
the scroll container's view: the container's scroll-top offset is SET to
`elementTop - containerTop - (containerHeight - elementHeight)`. -/
lemma scrollTo_down_eq (env : Env) (st : St) (el : Elem)
    (h : inScrollContainerViewport env st el = false) :
    scrollTo env st el "down"
      = { st with
            scrollTop := el.offsetTop - env.containerOffsetTop
              - (env.containerOffsetHeight - el.offsetHeight),
            scrollToCalls := st.scrollToCalls + 1 } := by
  simp [scrollTo, h]

/-- A bottom edge beyond the container's visible bottom makes the bottom check
of `inScrollContainerViewport` fail. -/
lemma inScrollContainerViewport_false_of_bottom (env : Env) (st : St) (el : Elem)
    (h : env.containerOffsetTop + env.containerOffsetHeight
           < el.offsetTop + el.offsetHeight - st.scrollTop) :
    inScrollContainerViewport env st el = false := by
  unfold inScrollContainerViewport
  simp [not_le.mpr h]

/-- C5 counterexample: container at the origin, 100 high, scroll-top 10;
element at top 200, height 50.  Its bottom edge (240 in scrolled coordinates)
lies beyond the visible bottom (100).  The claim's
`Δ = elementTop - containerTop - (containerHeight - elementHeight)` is 150,
but the scroll-top offset increases by 140 (it is SET to 150 from 10), so the
claim "increases ... by exactly Δ" is false at this input. -/
theorem C5_counterexample :
    (baseEnv.containerOffsetTop + baseEnv.containerOffsetHeight
        < (mkElem 1 0 200 10 50).offsetTop + (mkElem 1 0 200 10 50).offsetHeight
            - ({ baseSt with scrollTop := 10 } : St).scrollTop) ∧
    ((mkElem 1 0 200 10 50).offsetTop - baseEnv.containerOffsetTop
        - (baseEnv.containerOffsetHeight - (mkElem 1 0 200 10 50).offsetHeight) = 150) ∧
    ((scrollTo baseEnv { baseSt with scrollTop := 10 } (mkElem 1 0 200 10 50) "down").scrollTop
        - ({ baseSt with scrollTop := 10 } : St).scrollTop = 140) ∧
    (140 : Int) ≠ 150 := by
  refine ⟨by decide, by decide, ?_, by decide⟩
  decide

/-- C5 (amended): when the element's bottom edge lies beyond the container's
visible bottom, `scrollTo` with direction `down` SETS the container scroll-top
offset to `Δ = elementTop - containerTop - (containerHeight - elementHeight)`
— equivalently, it increases it by exactly the amount by which the bottom edge
exceeds the visible bottom — and whenever both visibility checks pass,
`scrollTo` performs no scroll mutation at all (only the instrumentation
counter changes). -/
theorem C5_scrollTo_down_sets_offset (env : Env) (st : St) (el : Elem) :
    (env.containerOffsetTop + env.containerOffsetHeight
        < el.offsetTop + el.offsetHeight - st.scrollTop →
      (scrollTo env st el "down").scrollTop
          = el.offsetTop - env.containerOffsetTop
              - (env.containerOffsetHeight - el.offsetHeight) ∧
      (scrollTo env st el "down").scrollTop - st.scrollTop
          = (el.offsetTop + el.offsetHeight - st.scrollTop)
              - (env.containerOffsetTop + env.containerOffsetHeight)) ∧
    (∀ direction, inScrollContainerViewport env st el = true → inViewport env el = true →
        scrollTo env st el direction = { st with scrollToCalls := st.scrollToCalls + 1 }) := by
  constructor
  · intro h
    rw [scrollTo_down_eq env st el (inScrollContainerViewport_false_of_bottom env st el h)]
    constructor
    · rfl
    · show el.offsetTop - env.containerOffsetTop
          - (env.containerOffsetHeight - el.offsetHeight) - st.scrollTop = _
      ring
  · intro direction h1 h2
    exact scrollTo_noop_of_visible env st el direction h1 h2

/-- Witness for C5 (amended): both parts instantiated — the out-of-view
element from the counterexample setup, and a fully visible element for the
no-mutation part. -/
theorem C5_witness :
    (scrollTo baseEnv { baseSt with scrollTop := 10 } (mkElem 1 0 200 10 50) "down").scrollTop
        = 150 ∧
    scrollTo baseEnv baseSt (mkElem 1 0 10 10 10) "up"
        = { baseSt with scrollToCalls := 1 } :=
  ⟨((C5_scrollTo_down_sets_offset baseEnv { baseSt with scrollTop := 10 }
      (mkElem 1 0 200 10 50)).1 (by decide)).1,
   (C5_scrollTo_down_sets_offset baseEnv baseSt (mkElem 1 0 10 10 10)).2 "up"
      (by decide) (by decide)⟩

/-- C4 counterexample: freshly enabled navigator, no selection, one candidate
at top 200 (outside the 100-high container's view), arrow-down (key code 40).
The bound-direction input selects the first candidate — but a container scroll
IS performed for this initial selection: scroll-top jumps from 0 to 150,
contradicting "no scroll adjustment is performed for this initial selection". -/
theorem C4_counterexample :
    ({ baseSt with enabled := true, elements := [mkElem 1 0 200 10 50] } : St).selected
        = none ∧
    ({ baseSt with enabled := true, elements := [mkElem 1 0 200 10 50] } : St).scrollTop
        = 0 ∧
    (handleKeydown baseEnv
        { baseSt with enabled := true, elements := [mkElem 1 0 200 10 50] } 40).selected
        = some (mkElem 1 0 200 10 50) ∧
    (handleKeydown baseEnv
        { baseSt with enabled := true, elements := [mkElem 1 0 200 10 50] } 40).scrollTop
        = 150 := by
  refine ⟨rfl, rfl, ?_, ?_⟩ <;> decide

/-- C4 (amended): a bound-direction input received with no current selection
selects the first candidate in sequence order, and the direction is passed on,
so `scrollTo` IS invoked for this initial selection (exactly once); no scroll
offset is mutated only when the first candidate already passes both visibility
checks. -/
theorem C4_initial_selection_invokes_scroll (env : Env) (st : St) (which : Nat)
    (direction : String) (hk : keysLookup env which = some direction)
    (hsel : st.selected = none) :
    handleKeydown env st which = select env st st.elements.head? (some direction) ∧
    (∀ e, st.elements.head? = some e →
      (handleKeydown env st which).selected = some e ∧
      (handleKeydown env st which).scrollToCalls = st.scrollToCalls + 1 ∧
      (inScrollContainerViewport env st e = true → inViewport env e = true →
        (handleKeydown env st which).scrollLeft = st.scrollLeft ∧
        (handleKeydown env st which).scrollTop = st.scrollTop ∧
        (handleKeydown env st which).bodyScrollLeft = st.bodyScrollLeft ∧
        (handleKeydown env st which).bodyScrollTop = st.bodyScrollTop)) := by
  have hmain : handleKeydown env st which = select env st st.elements.head? (some direction) := by
    simp only [handleKeydown, hk, hsel]
  refine ⟨hmain, fun e he => ?_⟩
  have hne : st.selected ≠ some e := by
    rw [hsel]; exact fun hEq => Option.noConfusion hEq
  rw [hmain, he]
  refine ⟨select_new_selected env st e (some direction) hne,
    (select_new_scrollToCalls env st e hne).2 direction, fun h1 h2 => ?_⟩
  simp only [select]
  rw [if_neg hne, unselect_of_none st hsel,
    scrollTo_noop_of_visible env st e direction h1 h2]
  cases hin : e.isInput <;> simp [hin]

/-- Witness for C4 (amended): a fully visible first candidate; the input
selects it, invokes `scrollTo` once, and mutates no scroll offset. -/
theorem C4_witness :
    (handleKeydown baseEnv
        { baseSt with enabled := true, elements := [mkElem 1 0 10 10 10] } 40).selected
        = some (mkElem 1 0 10 10 10) ∧
    (handleKeydown baseEnv
        { baseSt with enabled := true, elements := [mkElem 1 0 10 10 10] } 40).scrollToCalls
        = 1 ∧
    (handleKeydown baseEnv
        { baseSt with enabled := true, elements := [mkElem 1 0 10 10 10] } 40).scrollTop
        = 0 :=
  ⟨((C4_initial_selection_invokes_scroll baseEnv
        { baseSt with enabled := true, elements := [mkElem 1 0 10 10 10] } 40 "down"
        (by decide) rfl).2 (mkElem 1 0 10 10 10) rfl).1,
   ((C4_initial_selection_invokes_scroll baseEnv
        { baseSt with enabled := true, elements := [mkElem 1 0 10 10 10] } 40 "down"
        (by decide) rfl).2 (mkElem 1 0 10 10 10) rfl).2.1,
   (((C4_initial_selection_invokes_scroll baseEnv
        { baseSt with enabled := true, elements := [mkElem 1 0 10 10 10] } 40 "down"
        (by decide) rfl).2 (mkElem 1 0 10 10 10) rfl).2.2 (by decide) (by decide)).2.1⟩

/-- Walking for `sel` in a list that ends with `sel` and contains it nowhere
earlier yields no successor. -/
lemma specGetNextElement_concat_self (sel : Elem) :
    ∀ pre : List Elem, sel ∉ pre → specGetNextElement sel (pre ++ [sel]) = none := by
  intro pre
  induction pre with
  | nil => intro _; simp [specGetNextElement]
  | cons p ps ih =>
    intro h
    have hp : ¬ p = sel := fun he => h (List.mem_cons.mpr (Or.inl he.symm))
    have hps : sel ∉ ps := fun hm => h (List.mem_cons.mpr (Or.inr hm))
    simp only [List.cons_append, specGetNextElement, if_neg hp]
    exact ih hps

/-- C2: navigation `right` dispatches to the immediate successor of the
selection in sequence order and `left` to the immediate predecessor; neither
wraps around — from the last candidate `right` yields no result and from the
first candidate `left` yields no result, and in both cases the keydown-driven
state machine leaves the whole state (in particular the current selection)
unchanged. -/
theorem C2_right_left_sequence_order (env : Env) (st : St) (sel : Elem)
    (hnd : st.elements.Nodup) :
    getNextElement st sel "right" = Except.ok (specGetNextElement sel st.elements) ∧
    getNextElement st sel "left" = Except.ok (specGetPreviousElement sel st.elements) ∧
    (st.elements.getLast? = some sel →
      getNextElement st sel "right" = Except.ok none ∧
      (st.selected = some sel → ∀ which, keysLookup env which = some "right" →
        handleKeydown env st which = st)) ∧
    (st.elements.head? = some sel →
      getNextElement st sel "left" = Except.ok none ∧
      (st.selected = some sel → ∀ which, keysLookup env which = some "left" →
        handleKeydown env st which = st)) := by
  refine ⟨rfl, rfl, fun hlast => ?_, fun hhead => ?_⟩
  · have hdecomp : st.elements.dropLast ++ [sel] = st.elements :=
      List.dropLast_append_getLast? sel (Option.mem_def.mpr hlast)
    have hnd' : (st.elements.dropLast ++ [sel]).Nodup := by rw [hdecomp]; exact hnd
    have hnotin : sel ∉ st.elements.dropLast := fun hm =>
      (List.nodup_append.mp hnd').2.2 hm (List.mem_singleton.mpr rfl)
    have hnone : specGetNextElement sel st.elements = none := by
      rw [← hdecomp]
      exact specGetNextElement_concat_self sel _ hnotin
    have hr : getNextElement st sel "right" = Except.ok none := by
      show Except.ok (specGetNextElement sel st.elements) = Except.ok none
      rw [hnone]
    refine ⟨hr, fun hsel which hw => ?_⟩
    simp only [handleKeydown, hw, hsel, hr]
    rfl
  · obtain ⟨tail, htail⟩ : ∃ tail, st.elements = sel :: tail := by
      cases hel : st.elements with
      | nil => rw [hel] at hhead; cases hhead
      | cons a l =>
        rw [hel] at hhead
        cases hhead
        exact ⟨l, rfl⟩
    have hnotin : sel ∉ tail.reverse := by
      rw [List.mem_reverse]
      intro hm
      rw [htail] at hnd
      exact (List.nodup_cons.mp hnd).1 hm
    have hnone : specGetPreviousElement sel st.elements = none := by
      unfold specGetPreviousElement
      rw [htail, List.reverse_cons]
      exact specGetNextElement_concat_self sel _ hnotin
    have hl : getNextElement st sel "left" = Except.ok none := by
      show Except.ok (specGetPreviousElement sel st.elements) = Except.ok none
      rw [hnone]
    refine ⟨hl, fun hsel which hw => ?_⟩
    simp only [handleKeydown, hw, hsel, hl]
    rfl

/-- Two candidates in sequence order with the second (last) one selected, on
an enabled navigator. -/
def twoElSt : St :=
  { baseSt with
      enabled := true,
      elements := [mkElem 1 0 0 10 10, mkElem 2 20 0 10 10],
      selected := some (mkElem 2 20 0 10 10) }

/-- Witness for C2: from the last candidate, `right` yields no result and
arrow-right (key code 39) leaves the state unchanged. -/
theorem C2_witness :
    getNextElement twoElSt (mkElem 2 20 0 10 10) "right" = Except.ok none ∧
    handleKeydown baseEnv twoElSt 39 = twoElSt := by
  have h := C2_right_left_sequence_order baseEnv twoElSt (mkElem 2 20 0 10 10) (by decide)
  exact ⟨(h.2.2.1 (by decide)).1, (h.2.2.1 (by decide)).2 (by decide) 39 (by decide)⟩

/-- A single candidate with a NEGATIVE left offset, below the anchor of the
selection used in the C1 counterexample. -/
def negLeftSt : St := { baseSt with elements := [mkElem 1 (-1) 60 10 10] }

/-- C1 counterexample: selection at `(0, 0)` with height 50, so the Down
anchor top is 50.  The only candidate sits at `(-1, 60)`: its top offset 60 is
at least the anchor's top, so the claim's filter keeps it and the claim
requires it (the unique, hence minimal-distance, filtered candidate) to be
returned — but the code's Down filter is `elementsAfter(0, top)`, which also
requires `offsetLeft >= 0`, so the code returns no element. -/
theorem C1_counterexample :
    negLeftSt.elements.filter
        (fun el =>
          decide ((mkElem 0 0 0 10 50).offsetTop + (mkElem 0 0 0 10 50).offsetHeight
            ≤ el.offsetTop))
      = [mkElem 1 (-1) 60 10 10] ∧
    getNextElement negLeftSt (mkElem 0 0 0 10 50) "down" = Except.ok none :=
  ⟨rfl, rfl⟩

/-- C1 (amended): for direction Down the computation filters the candidates to
those with top offset at least the anchor's top AND left offset at least 0
(`elementsAfter(0, top)`); for Up it filters to those with top offset at most
the anchor's top (the left bound is `Infinity`, hence no constraint); among
the filtered candidates it returns the earliest one of minimal Manhattan
distance to the anchor — `firstMinBy`, the spec-side earliest-minimum
selection, under which a later candidate at equal distance is never chosen
(see `firstMinBy_isFirstMin`). -/
theorem C1_down_up_nearest_first_min (st : St) (sel : Elem) :
    getNextElement st sel "down"
      = Except.ok (firstMinBy
          (fun el => |el.offsetLeft - sel.offsetLeft|
            + |el.offsetTop - (sel.offsetTop + sel.offsetHeight)|)
          (elementsAfter st 0 (sel.offsetTop + sel.offsetHeight))) ∧
    getNextElement st sel "up"
      = Except.ok (firstMinBy
          (fun el => |sel.offsetLeft - el.offsetLeft|
            + |sel.offsetTop - 1 - el.offsetTop|)
          (elementsBeforeTop st (sel.offsetTop - 1))) := by
  constructor
  · show Except.ok (reduceNearest
        (fun el => |el.offsetLeft - sel.offsetLeft|
          + |el.offsetTop - (sel.offsetTop + sel.offsetHeight)|)
        (elementsAfter st 0 (sel.offsetTop + sel.offsetHeight))) = _
    rw [reduceNearest_eq_firstMinBy]
  · show Except.ok (reduceNearest
        (fun el => |sel.offsetLeft - el.offsetLeft|
          + |sel.offsetTop - 1 - el.offsetTop|)
        (elementsBeforeTop st (sel.offsetTop - 1))) = _
    rw [reduceNearest_eq_firstMinBy]

/-- An element holds a visual marker when it carries the configured highlight
class or holds the input focus. -/
def markHolder (st : St) (el : Elem) : Bool :=
  decide (el.id ∈ st.classes) || decide (st.focused = some el.id)

/-- The state reached on a fresh enabled navigator by selecting the input
element and then a generic element. -/
def dualMarkSt : St :=
  select baseEnv
    (select baseEnv
      { baseSt with enabled := true, elements := [inpEl, mkElem 2 20 0 10 10] }
      (some inpEl) none)
    (some (mkElem 2 20 0 10 10)) none

/-- C8 counterexample: selecting the input element moves focus to it; moving
the selection to a generic element removes only the highlight class (which the
input never had) and leaves the focus in place.  In the resulting
enabled-selected state TWO elements hold a visual marker — the focused input
and the highlighted generic element — refuting "exactly one element holds the
visual marker (highlight class or input focus) at any time". -/
theorem C8_counterexample :
    dualMarkSt.enabled = true ∧
    dualMarkSt.selected = some (mkElem 2 20 0 10 10) ∧
    dualMarkSt.focused = some 5 ∧
    dualMarkSt.classes = [2] ∧
    (dualMarkSt.elements.filter (markHolder dualMarkSt)).length = 2 :=
  ⟨rfl, rfl, rfl, rfl, rfl⟩

/-- The highlight-class invariant that DOES hold: either no element carries
the configured class, or exactly the currently selected element does. -/
def ClassInv (st : St) : Prop :=
  st.classes = [] ∨ ∃ sel, st.selected = some sel ∧ st.classes = [sel.id]

lemma unselect_classes_of_inv (st : St) (h : ClassInv st) :
    (unselect st).classes = [] := by
  rcases h with h | ⟨sel, hsel, hcl⟩
  · unfold unselect
    cases hsel2 : st.selected with
    | none => exact h
    | some a => simp [h]
  · unfold unselect
    rw [hsel]
    simp only
    rw [hcl]
    simp

lemma ClassInv_select (env : Env) (st : St) (el : Option Elem) (d : Option String)
    (h : ClassInv st) : ClassInv (select env st el d) := by
  cases el with
  | none => exact h
  | some el =>
    by_cases hs : st.selected = some el
    · rw [select_already env st el d hs]; exact h
    · have hu : (unselect st).classes = [] := unselect_classes_of_inv st h
      simp only [select]
      rw [if_neg hs]
      cases d with
      | none =>
        cases hin : el.isInput with
        | true => exact Or.inl (by simp [hin, hu])
        | false =>
          refine Or.inr ⟨el, by simp [hin], ?_⟩
          simp [hin, hu]
      | some dir =>
        cases hin : el.isInput with
        | true => exact Or.inl (by simp [hin, hu])
        | false =>
          refine Or.inr ⟨el, by simp [hin], ?_⟩
          simp [hin, hu]

lemma ClassInv_unselect (st : St) (h : ClassInv st) : ClassInv (unselect st) :=
  Or.inl (unselect_classes_of_inv st h)

lemma ClassInv_scrollTo (env : Env) (st : St) (el : Elem) (d : String)
    (h : ClassInv st) : ClassInv (scrollTo env st el d) := by
  rcases h with h | ⟨sel, hsel, hcl⟩
  · exact Or.inl (by simp [h])
  · exact Or.inr ⟨sel, by simp [hsel], by simp [hcl]⟩

lemma ClassInv_enable (env : Env) (st : St) (h : ClassInv st) :
    ClassInv (enable env st) := h

lemma ClassInv_disable (st : St) (h : ClassInv st) : ClassInv (disable st) := by
  unfold disable
  cases hk : st.keydownHandler with
  | none => exact Or.inl (unselect_classes_of_inv st h)
  | some k => exact Or.inl (unselect_classes_of_inv _ h)

lemma ClassInv_handleKeydown (env : Env) (st : St) (which : Nat)
    (h : ClassInv st) : ClassInv (handleKeydown env st which) := by
  unfold handleKeydown
  cases hk : keysLookup env which with
  | none => exact h
  | some d => exact ClassInv_select env st _ _ h

/-- C8 (amended): at most one element holds the HIGHLIGHT CLASS at any time —
the class invariant (no classed element, or exactly the selected one) is
preserved by every operation of the navigator, because each selection
transition removes the previous element's class before applying the new
marker — and at most one element is selected at any time.  (The "exactly one
holder of highlight-or-focus" form of the claim fails: an input's focus marker
survives the transition, see the counterexample.) -/
theorem C8_at_most_one_highlight (env : Env) (st : St) (h : ClassInv st) :
    (∀ el d, ClassInv (select env st el d)) ∧
    ClassInv (unselect st) ∧
    ClassInv (enable env st) ∧
    ClassInv (disable st) ∧
    (∀ which, ClassInv (handleKeydown env st which)) ∧
    st.classes.length ≤ 1 ∧
    (∀ a b, st.selected = some a → st.selected = some b → a = b) := by
  refine ⟨fun el d => ClassInv_select env st el d h,
    ClassInv_unselect st h, ClassInv_enable env st h, ClassInv_disable st h,
    fun which => ClassInv_handleKeydown env st which h, ?_, ?_⟩
  · rcases h with h | ⟨sel, _, hcl⟩
    · rw [h]; exact Nat.zero_le 1
    · rw [hcl]; exact le_refl 1
  · intro a b ha hb
    rw [ha] at hb
    exact Option.some.inj hb

/-- Witness for C8 (amended) at a concrete state: the invariant holds on the
fresh navigator and is preserved by a concrete selection. -/
theorem C8_witness :
    ClassInv (select baseEnv baseSt (some (mkElem 1 0 0 10 10)) none) ∧
    baseSt.classes.length ≤ 1 :=
  ⟨(C8_at_most_one_highlight baseEnv baseSt (Or.inl rfl)).1 (some (mkElem 1 0 0 10 10)) none,
   (C8_at_most_one_highlight baseEnv baseSt (Or.inl rfl)).2.2.2.2.2.1⟩

end DomNavigator
